import Mathlib

/-!
Shallow embedding of the asynchronous image-load pipeline of the
Raw-Photo-Browser repository: the concurrent FIFO queue
(concurrent_queue.h), the CPU/GPU texture envelope types
(texture_types.h), and the `ImageDatabase` load coordinator
(image_database.h) together with the worker-side decode steps
(`workerThreadFunc`, `loadPreview`, `loadRaw`, and `loadJpegPreview`
from main.cpp).

The external decode library (LibRaw), the JPEG decoder (stb_image) and
the SDL renderer are opaque collaborators of this core; they are
modelled as an oracle (`DecodeEnv`) mapping a source path to the
outcome of each fallible library call, and SDL texture creation is
modelled as succeeding whenever the source code reaches it.  Pointers
that may be null are modelled as `Option`; the worker pool's
interleaving is modelled by single worker steps acting on the shared
queues, which is faithful for the per-task sequential properties
stated below.
-/

namespace RawPhotoBrowser

/-- Type of load to perform (`LoadType` in image_database.h). -/
inductive LoadType where
  | PreviewOnly
  | RawOnly
  | Both
deriving DecidableEq, Repr

/-- Task to load an image (`LoadTask` in image_database.h). -/
structure LoadTask where
  imageIndex : Nat
  imagePath : String
  loadType : LoadType
deriving DecidableEq, Repr

/-- Result kind (`ImageType` in image_database.h). -/
inductive ImageType where
  | Preview
  | Raw
deriving DecidableEq, Repr

/-- The type tag of a LibRaw processed image (`LIBRAW_IMAGE_JPEG` /
`LIBRAW_IMAGE_BITMAP`). -/
inductive LibRawImageKind where
  | JPEG
  | Bitmap
deriving DecidableEq, Repr

/-- A `libraw_processed_image_t` heap object: its type tag, dimensions
and pixel payload. -/
structure RawImage where
  kind : LibRawImageKind
  width : Int
  height : Int
  data : List Nat
deriving DecidableEq, Repr

/-- `CpuTexture` (texture_types.h): a possibly-null heap pixel buffer
plus dimensions.  A null `pixels` pointer is `none`. -/
structure CpuTexture where
  pixels : Option (List Nat)
  width : Int
  height : Int
  channels : Int
deriving DecidableEq, Repr

/-- The default-constructed `CpuTexture()` : null pixels, zero sizes. -/
def CpuTexture.init : CpuTexture := ⟨none, 0, 0, 0⟩

/-- The move constructor `CpuTexture(CpuTexture&&)`: returns the newly
constructed destination and the moved-from source object. -/
def CpuTexture.moveCtor (other : CpuTexture) : CpuTexture × CpuTexture :=
  (⟨other.pixels, other.width, other.height, other.channels⟩,
   ⟨none, 0, 0, 0⟩)

/-- The move assignment `operator=(CpuTexture&&)` between two distinct
objects: the old destination buffer is freed, the destination takes the
source's fields, the source is nulled.  Returns (destination after,
source after). -/
def CpuTexture.moveAssign (_dst other : CpuTexture) : CpuTexture × CpuTexture :=
  (⟨other.pixels, other.width, other.height, other.channels⟩,
   ⟨none, 0, 0, 0⟩)

/-- SDL pixel formats used by the program. -/
inductive PixelFormat where
  | RGB24
  | RGBA32
deriving DecidableEq, Repr

/-- An `SDL_Texture` that was created and uploaded: format plus
dimensions. -/
structure SdlTexture where
  format : PixelFormat
  width : Int
  height : Int
deriving DecidableEq, Repr

/-- `GpuTexture` (texture_types.h): a possibly-null `SDL_Texture*`,
original dimensions and the LibRaw flip/orientation value. -/
structure GpuTexture where
  texture : Option SdlTexture
  originalWidth : Int
  originalHeight : Int
  orientation : Int
deriving DecidableEq, Repr

/-- The default-constructed `GpuTexture()`. -/
def GpuTexture.init : GpuTexture := ⟨none, 0, 0, 0⟩

/-- `GpuTexture(SDL_Renderer*, const CpuTexture&, int)`: creates a
texture only when the CPU buffer is non-null with positive dimensions
and a supported channel count (3 → RGB24, 4 → RGBA32); SDL texture
creation itself is modelled as succeeding. -/
def GpuTexture.fromCpu (cpuTex : CpuTexture) (orient : Int) : GpuTexture :=
  match cpuTex.pixels with
  | some _ =>
    if cpuTex.width > 0 ∧ cpuTex.height > 0 then
      if cpuTex.channels = 3 then
        ⟨some ⟨PixelFormat.RGB24, cpuTex.width, cpuTex.height⟩,
         cpuTex.width, cpuTex.height, orient⟩
      else if cpuTex.channels = 4 then
        ⟨some ⟨PixelFormat.RGBA32, cpuTex.width, cpuTex.height⟩,
         cpuTex.width, cpuTex.height, orient⟩
      else
        ⟨none, 0, 0, orient⟩
    else
      ⟨none, 0, 0, orient⟩
  | none => ⟨none, 0, 0, orient⟩

/-- `GpuTexture(SDL_Renderer*, libraw_processed_image_t*, int)`:
creates an RGB24 texture when the image pointer is non-null and its
type is `LIBRAW_IMAGE_BITMAP`. -/
def GpuTexture.fromRaw (image : Option RawImage) (orient : Int) : GpuTexture :=
  match image with
  | some img =>
    if img.kind = LibRawImageKind.Bitmap then
      ⟨some ⟨PixelFormat.RGB24, img.width, img.height⟩,
       img.width, img.height, orient⟩
    else
      ⟨none, 0, 0, orient⟩
  | none => ⟨none, 0, 0, orient⟩

/-- `GpuTexture::getRotationDegrees`. -/
def GpuTexture.getRotationDegrees (g : GpuTexture) : Int :=
  if g.orientation = 3 then 180
  else if g.orientation = 5 then 270
  else if g.orientation = 6 then 90
  else 0

/-- Result from loading (`LoadResult` in image_database.h): either a
preview (CPU pixel buffer) or a raw (`libraw_processed_image_t*`)
payload, plus the orientation metadata. -/
structure LoadResult where
  imageIndex : Nat
  imageType : ImageType
  cpuTexture : CpuTexture
  rawImage : Option RawImage
  orientation : Int
deriving DecidableEq, Repr

/-- The default-constructed `LoadResult()`. -/
def LoadResult.init : LoadResult :=
  ⟨0, ImageType.Preview, CpuTexture.init, none, 0⟩

/-- The move constructor `LoadResult(LoadResult&&)`: member-wise moves,
nulling the source's `rawImage` and (via `CpuTexture`'s move) its pixel
buffer.  Returns (destination, moved-from source). -/
def LoadResult.moveCtor (other : LoadResult) : LoadResult × LoadResult :=
  (⟨other.imageIndex, other.imageType, (CpuTexture.moveCtor other.cpuTexture).1,
    other.rawImage, other.orientation⟩,
   ⟨other.imageIndex, other.imageType, (CpuTexture.moveCtor other.cpuTexture).2,
    none, other.orientation⟩)

/-- The move assignment `operator=(LoadResult&&)` between distinct
objects: the destination's old raw image is freed, fields transfer, the
source's `rawImage` and pixel buffer are nulled. -/
def LoadResult.moveAssign (dst other : LoadResult) : LoadResult × LoadResult :=
  (⟨other.imageIndex, other.imageType,
    (CpuTexture.moveAssign dst.cpuTexture other.cpuTexture).1,
    other.rawImage, other.orientation⟩,
   ⟨other.imageIndex, other.imageType,
    (CpuTexture.moveAssign dst.cpuTexture other.cpuTexture).2,
    none, other.orientation⟩)

/-- `ConcurrentQueue<T>` (concurrent_queue.h): a mutex-protected
`std::queue`, modelled by its list of items, front first. -/
structure ConcurrentQueue (α : Type) where
  items : List α
deriving DecidableEq, Repr

/-- The empty queue. -/
def ConcurrentQueue.empty (α : Type) : ConcurrentQueue α := ⟨[]⟩

/-- `ConcurrentQueue::push`: appends at the back; always succeeds. -/
def ConcurrentQueue.push (q : ConcurrentQueue α) (value : α) : ConcurrentQueue α :=
  ⟨q.items ++ [value]⟩

/-- `ConcurrentQueue::tryPop`: non-blocking; `none` on an empty queue,
otherwise removes and returns the front (oldest) item. -/
def ConcurrentQueue.tryPop (q : ConcurrentQueue α) : Option α × ConcurrentQueue α :=
  match q.items with
  | [] => (none, q)
  | x :: xs => (some x, ⟨xs⟩)

/-- `ConcurrentQueue::size`. -/
def ConcurrentQueue.size (q : ConcurrentQueue α) : Nat := q.items.length

/-- Auxiliary recursion for `drainAll`, fuelled by the queue length. -/
def ConcurrentQueue.drainGo : Nat → ConcurrentQueue α → List α
  | 0, _ => []
  | n + 1, q =>
    match q.tryPop with
    | (none, _) => []
    | (some x, q1) => x :: ConcurrentQueue.drainGo n q1

/-- Repeatedly `tryPop` until the queue reports empty, collecting the
items in the order they were delivered. -/
def ConcurrentQueue.drainAll (q : ConcurrentQueue α) : List α :=
  ConcurrentQueue.drainGo q.size q

/-- Entry in the database for a single image (`ImageEntry`). -/
structure ImageEntry where
  preview : GpuTexture
  raw : GpuTexture
  previewLoaded : Bool
  rawLoaded : Bool
  previewRequested : Bool
  rawRequested : Bool
deriving DecidableEq, Repr

/-- The default-constructed `ImageEntry()`: default textures, all four
flags false. -/
def ImageEntry.init : ImageEntry :=
  ⟨GpuTexture.init, GpuTexture.init, false, false, false, false⟩

/-- The registry map `std::unordered_map<size_t, ImageEntry>`, modelled
as an association list without duplicate keys in the operations used. -/
abbrev Entries := List (Nat × ImageEntry)

/-- `entries_.find(i)` : lookup by key. -/
def findEntry : Entries → Nat → Option ImageEntry
  | [], _ => none
  | (k, v) :: rest, i => if k = i then some v else findEntry rest i

/-- `entries_[i] = v` : replace the binding for `i`, or insert it if
absent (the semantics of `unordered_map::operator[]` assignment). -/
def setEntry : Entries → Nat → ImageEntry → Entries
  | [], i, v => [(i, v)]
  | (k, v0) :: rest, i, v =>
    if k = i then (i, v) :: rest else (k, v0) :: setEntry rest i v

/-- The entry currently stored for `i`, or a default-constructed one —
exactly what `entries_[i]` denotes before mutation. -/
def entryAt (es : Entries) (i : Nat) : ImageEntry :=
  (findEntry es i).getD ImageEntry.init

/-- The `ImageDatabase` state visible to the consumer thread: the
registry plus the two concurrent queues.  The `SDL_Renderer*` member
is implicit in `GpuTexture.fromCpu` / `fromRaw`; the thread pool
itself is modelled by explicit worker steps. -/
structure ImageDatabase where
  entries : Entries
  taskQueue : ConcurrentQueue LoadTask
  resultsQueue : ConcurrentQueue LoadResult
deriving DecidableEq, Repr

/-- The freshly-constructed database: empty registry, empty queues. -/
def ImageDatabase.mk0 : ImageDatabase :=
  ⟨[], ConcurrentQueue.empty LoadTask, ConcurrentQueue.empty LoadResult⟩

/-- The common enqueue step of `tryGetThumbnail` and
`requestAllThumbnails`: store the entry with `previewRequested = true`
and push a preview-only task. -/
def queuePreviewTask (db : ImageDatabase) (imageIndex : Nat) (imagePath : String)
    (e : ImageEntry) : ImageDatabase :=
  { db with
    entries := setEntry db.entries imageIndex { e with previewRequested := true },
    taskQueue := db.taskQueue.push ⟨imageIndex, imagePath, LoadType.PreviewOnly⟩ }

/-- `ImageDatabase::tryGetThumbnail`: returns the preview handle if
loaded; otherwise queues a preview-only task unless one was already
requested.  The returned `Option GpuTexture` models the returned
`GpuTexture*` (null = `none`). -/
def tryGetThumbnail (db : ImageDatabase) (imageIndex : Nat) (imagePath : String) :
    Option GpuTexture × ImageDatabase :=
  match findEntry db.entries imageIndex with
  | some e =>
    if e.previewLoaded then
      (some e.preview, db)
    else if e.previewRequested then
      (none, db)
    else
      (none, queuePreviewTask db imageIndex imagePath e)
  | none =>
    (none, queuePreviewTask db imageIndex imagePath ImageEntry.init)

/-- The enqueue step of `tryGetRaw`: mark `rawRequested`, choose
`RawOnly` when the preview is already loaded or requested and `Both`
otherwise (marking the preview requested too), and push the task. -/
def queueRawTask (db : ImageDatabase) (imageIndex : Nat) (imagePath : String)
    (e : ImageEntry) : ImageDatabase :=
  if e.previewLoaded || e.previewRequested then
    { db with
      entries := setEntry db.entries imageIndex { e with rawRequested := true },
      taskQueue := db.taskQueue.push ⟨imageIndex, imagePath, LoadType.RawOnly⟩ }
  else
    { db with
      entries := setEntry db.entries imageIndex
        { e with rawRequested := true, previewRequested := true },
      taskQueue := db.taskQueue.push ⟨imageIndex, imagePath, LoadType.Both⟩ }

/-- `ImageDatabase::tryGetRaw`. -/
def tryGetRaw (db : ImageDatabase) (imageIndex : Nat) (imagePath : String) :
    Option GpuTexture × ImageDatabase :=
  match findEntry db.entries imageIndex with
  | some e =>
    if e.rawLoaded then
      (some e.raw, db)
    else if e.rawRequested then
      (none, db)
    else
      (none, queueRawTask db imageIndex imagePath e)
  | none =>
    (none, queueRawTask db imageIndex imagePath ImageEntry.init)

/-- `ImageDatabase::isFullyLoaded`. -/
def isFullyLoaded (db : ImageDatabase) (imageIndex : Nat) : Bool :=
  match findEntry db.entries imageIndex with
  | some e => e.previewLoaded && e.rawLoaded
  | none => false

/-- One iteration of the loop in `ImageDatabase::requestAllThumbnails`. -/
def warmStep (db : ImageDatabase) (ip : Nat × String) : ImageDatabase :=
  match findEntry db.entries ip.1 with
  | some e =>
    if e.previewLoaded || e.previewRequested then db
    else queuePreviewTask db ip.1 ip.2 e
  | none => queuePreviewTask db ip.1 ip.2 ImageEntry.init

/-- `ImageDatabase::requestAllThumbnails`: queue preview-only loads for
every image not yet loaded or requested. -/
def requestAllThumbnails (db : ImageDatabase) (images : List String) : ImageDatabase :=
  images.enum.foldl warmStep db

/-- The body of the drain loop in `ImageDatabase::update` for one
popped result: `entries_[result.imageIndex]` (which default-creates a
missing entry), then upload the texture and set the loaded flag for the
result's kind. -/
def applyResult (es : Entries) (result : LoadResult) : Entries :=
  match result.imageType with
  | ImageType.Preview =>
    setEntry es result.imageIndex
      { entryAt es result.imageIndex with
        preview := GpuTexture.fromCpu result.cpuTexture result.orientation,
        previewLoaded := true }
  | ImageType.Raw =>
    setEntry es result.imageIndex
      { entryAt es result.imageIndex with
        raw := GpuTexture.fromRaw result.rawImage result.orientation,
        rawLoaded := true }

/-- `ImageDatabase::update`: drain the results queue to empty, applying
each result in FIFO order. -/
def ImageDatabase.update (db : ImageDatabase) : ImageDatabase :=
  { db with
    entries := db.resultsQueue.items.foldl applyResult db.entries,
    resultsQueue := ConcurrentQueue.empty LoadResult }

/-- The decode collaborator (LibRaw + stb_image), treated as an opaque
oracle keyed by the source path: each field is the outcome of one
library call a worker makes while executing a task. -/
structure DecodeEnv where
  /-- `open_file` followed by `unpack` both return `LIBRAW_SUCCESS`
  (`initializeRawProcessor` returns non-null). -/
  openUnpackOk : String → Bool
  /-- `imgdata.sizes.flip` after unpacking. -/
  flip : String → Int
  /-- `unpack_thumb()` returns `LIBRAW_SUCCESS`. -/
  unpackThumbOk : String → Bool
  /-- `dcraw_make_mem_thumb` result (null = `none`). -/
  thumb : String → Option RawImage
  /-- `stbi_load_from_memory` on the thumb bytes, forced to 3 channels:
  `none` on decode failure, otherwise the pixel buffer and its size. -/
  stbiDecode : String → Option (List Nat × Int × Int)
  /-- `dcraw_process()` returns `LIBRAW_SUCCESS`. -/
  dcrawProcessOk : String → Bool
  /-- `dcraw_make_mem_image` result (null = `none`). -/
  memImage : String → Option RawImage

/-- `loadJpegPreview` (main.cpp): unpack the embedded thumbnail, and if
it exists and is a JPEG, decode it with stb_image; on any failure the
default-constructed (null-pixel) `CpuTexture` is returned. -/
def loadJpegPreview (env : DecodeEnv) (p : String) : CpuTexture :=
  if env.unpackThumbOk p then
    match env.thumb p with
    | some t =>
      if t.kind = LibRawImageKind.JPEG then
        match env.stbiDecode p with
        | some (pix, w, h) => ⟨some pix, w, h, 3⟩
        | none => CpuTexture.init
      else CpuTexture.init
    | none => CpuTexture.init
  else CpuTexture.init

/-- The result pushed by `ImageDatabase::loadPreview`: always pushed
(even when the extracted preview is empty), carrying the file's flip
value as orientation. -/
def loadPreviewResult (env : DecodeEnv) (task : LoadTask) : LoadResult :=
  ⟨task.imageIndex, ImageType.Preview, loadJpegPreview env task.imagePath,
   none, env.flip task.imagePath⟩

/-- The results pushed by `ImageDatabase::loadRaw`: nothing when
`dcraw_process` or `dcraw_make_mem_image` fails, otherwise one raw
result whose orientation is hard-coded to 0. -/
def loadRawResults (env : DecodeEnv) (task : LoadTask) : List LoadResult :=
  if env.dcrawProcessOk task.imagePath then
    match env.memImage task.imagePath with
    | some img =>
      [⟨task.imageIndex, ImageType.Raw, CpuTexture.init, some img, 0⟩]
    | none => []
  else []

/-- The results a worker pushes for one task, in push order (the body
of `workerThreadFunc` after a successful `tryPop`): nothing when the
file fails to open or unpack; otherwise the decodes selected by the
task's load type, a `Both` task running the preview decode and pushing
its result before the raw decode starts. -/
def processTask (env : DecodeEnv) (task : LoadTask) : List LoadResult :=
  if env.openUnpackOk task.imagePath then
    match task.loadType with
    | LoadType.PreviewOnly => [loadPreviewResult env task]
    | LoadType.RawOnly => loadRawResults env task
    | LoadType.Both => loadPreviewResult env task :: loadRawResults env task
  else []

/-- One worker loop iteration that found a task: pop the front task and
push the results it produces, in order. -/
def workerStep (env : DecodeEnv) (db : ImageDatabase) : ImageDatabase :=
  match db.taskQueue.tryPop with
  | (none, _) => db
  | (some task, q1) =>
    { db with
      taskQueue := q1,
      resultsQueue := ⟨db.resultsQueue.items ++ processTask env task⟩ }

/-- The operations that can touch the database after a point in time:
the consumer-thread calls and a worker step. -/
inductive DbOp where
  | thumb (i : Nat) (p : String)
  | rawReq (i : Nat) (p : String)
  | drain
  | warm (images : List String)
  | work (env : DecodeEnv)

/-- Apply one operation to the database state. -/
def applyOp : DbOp → ImageDatabase → ImageDatabase
  | DbOp.thumb i p, db => (tryGetThumbnail db i p).2
  | DbOp.rawReq i p, db => (tryGetRaw db i p).2
  | DbOp.drain, db => db.update
  | DbOp.warm images, db => requestAllThumbnails db images
  | DbOp.work env, db => workerStep env db

/-- The condition of `tryGetThumbnail`'s enqueue branch: preview
neither loaded nor requested (an absent entry counts, since the
fresh-created entry has both flags false). -/
def previewIdle (db : ImageDatabase) (i : Nat) : Bool :=
  !(entryAt db.entries i).previewLoaded && !(entryAt db.entries i).previewRequested

/-- The condition of `tryGetRaw`'s enqueue branch: raw neither loaded
nor requested. -/
def rawIdle (db : ImageDatabase) (i : Nat) : Bool :=
  !(entryAt db.entries i).rawLoaded && !(entryAt db.entries i).rawRequested

/-- The load-type selector of `tryGetRaw`: preview already loaded or
requested. -/
def previewActive (db : ImageDatabase) (i : Nat) : Bool :=
  (entryAt db.entries i).previewLoaded || (entryAt db.entries i).previewRequested

/-- The preview-loaded flag stored for `i` (false when no entry). -/
def previewLoadedAt (es : Entries) (i : Nat) : Bool :=
  (entryAt es i).previewLoaded

/-- The raw-loaded flag stored for `i` (false when no entry). -/
def rawLoadedAt (es : Entries) (i : Nat) : Bool :=
  (entryAt es i).rawLoaded

/-- A decode collaborator for which every library call fails: LibRaw
cannot open or unpack any file. -/
def failEnv : DecodeEnv :=
  ⟨fun _ => false, fun _ => 0, fun _ => false, fun _ => none,
   fun _ => none, fun _ => false, fun _ => none⟩

/-- The database right after the consumer first asks for the full image
of id 5 on a fresh database: one `Both` task queued. -/
def failDb1 : ImageDatabase := (tryGetRaw ImageDatabase.mk0 5 "bad.raw").2

/-- The state after a worker processes that task against `failEnv` and
the consumer drains the (empty) results. -/
def failDb3 : ImageDatabase := (workerStep failEnv failDb1).update

/-- A result whose identifier (7) has no registry entry: models a stale
result arriving after the image set changed. -/
def staleResult : LoadResult :=
  ⟨7, ImageType.Preview, ⟨some [1, 2, 3], 1, 1, 3⟩, none, 0⟩

/-- A database with an empty registry whose results queue holds only
`staleResult`. -/
def staleDb : ImageDatabase := ⟨[], ⟨[]⟩, ⟨[staleResult]⟩⟩

/-- A decode collaborator that opens every file and decodes both stages
successfully, with flip value 6. -/
def okEnv : DecodeEnv :=
  ⟨fun _ => true, fun _ => 6, fun _ => true,
   fun _ => some ⟨LibRawImageKind.JPEG, 4, 2, [9]⟩,
   fun _ => some ([7, 7, 7], 4, 2), fun _ => true,
   fun _ => some ⟨LibRawImageKind.Bitmap, 8, 4, [3]⟩⟩

/-- A decode collaborator that opens files fine but whose files carry
no embedded thumbnail (`unpack_thumb` fails); the full decode works. -/
def noThumbEnv : DecodeEnv :=
  ⟨fun _ => true, fun _ => 0, fun _ => false, fun _ => none,
   fun _ => none, fun _ => true,
   fun _ => some ⟨LibRawImageKind.Bitmap, 8, 4, [3]⟩⟩

/-! ### Basic registry-map lemmas -/

theorem findEntry_setEntry_self (es : Entries) (i : Nat) (v : ImageEntry) :
    findEntry (setEntry es i v) i = some v := by
  induction es with
  | nil => simp [setEntry, findEntry]
  | cons kv rest ih =>
    by_cases h : kv.1 = i
    · simp [setEntry, h, findEntry]
    · simp [setEntry, h, findEntry, ih]

theorem findEntry_setEntry_ne (es : Entries) (i j : Nat) (v : ImageEntry)
    (h : j ≠ i) : findEntry (setEntry es i v) j = findEntry es j := by
  induction es with
  | nil => simp [setEntry, findEntry, Ne.symm h]
  | cons kv rest ih =>
    obtain ⟨k, v0⟩ := kv
    by_cases hk : k = i
    · subst hk
      simp [setEntry, findEntry, Ne.symm h]
    · by_cases hj : k = j
      · subst hj
        simp [setEntry, hk, findEntry]
      · simp [setEntry, hk, findEntry, hj, ih]

theorem entryAt_setEntry_self (es : Entries) (i : Nat) (v : ImageEntry) :
    entryAt (setEntry es i v) i = v := by
  simp [entryAt, findEntry_setEntry_self]

theorem entryAt_setEntry_ne (es : Entries) (i j : Nat) (v : ImageEntry)
    (h : j ≠ i) : entryAt (setEntry es i v) j = entryAt es j := by
  simp [entryAt, findEntry_setEntry_ne _ _ _ _ h]

/-! ### Queue lemmas -/

theorem foldl_push_items (xs : List α) (q : ConcurrentQueue α) :
    (xs.foldl ConcurrentQueue.push q).items = q.items ++ xs := by
  induction xs generalizing q with
  | nil => simp
  | cons x xs ih => simp [ConcurrentQueue.push, ih]

theorem drainGo_of_le (n : Nat) (q : ConcurrentQueue α)
    (h : q.items.length ≤ n) : ConcurrentQueue.drainGo n q = q.items := by
  induction n generalizing q with
  | zero =>
    cases hq : q.items with
    | nil => simp [ConcurrentQueue.drainGo]
    | cons x xs => rw [hq] at h; simp at h
  | succ n ih =>
    cases hq : q.items with
    | nil => simp [ConcurrentQueue.drainGo, ConcurrentQueue.tryPop, hq]
    | cons x xs =>
      have hlen : xs.length ≤ n := by
        rw [hq] at h
        simpa using h
      simp [ConcurrentQueue.drainGo, ConcurrentQueue.tryPop, hq, ih ⟨xs⟩ hlen]

theorem drainAll_items (q : ConcurrentQueue α) :
    ConcurrentQueue.drainAll q = q.items :=
  drainGo_of_le _ _ (Nat.le_refl _)

/-! ### Claim theorems -/

/-- C7: `push` always succeeds, appending the item at the back;
`tryPop` is non-blocking — on an empty queue it returns nothing and
leaves the queue unchanged, and on a non-empty queue it removes and
returns the oldest item; draining a queue built by successive pushes
delivers the items in strict FIFO (insertion) order. -/
theorem concurrentQueue_contract :
    (∀ (α : Type) (q : ConcurrentQueue α) (x : α),
       (q.push x).items = q.items ++ [x])
  ∧ (∀ (α : Type) (q : ConcurrentQueue α), q.items = [] →
       q.tryPop = (none, q))
  ∧ (∀ (α : Type) (q : ConcurrentQueue α) (x : α) (xs : List α),
       q.items = x :: xs → q.tryPop = (some x, ⟨xs⟩))
  ∧ (∀ (α : Type) (xs : List α),
       ConcurrentQueue.drainAll
         (xs.foldl ConcurrentQueue.push (ConcurrentQueue.empty α)) = xs) := by
  refine ⟨fun α q x => rfl, ?_, ?_, ?_⟩
  · intro α q h
    simp [ConcurrentQueue.tryPop, h]
  · intro α q x xs h
    simp [ConcurrentQueue.tryPop, h]
  · intro α xs
    rw [drainAll_items, foldl_push_items]
    simp [ConcurrentQueue.empty]

/-- C7 witness: the contract evaluated on concrete queues of
naturals. -/
theorem concurrentQueue_contract_witness :
    ConcurrentQueue.tryPop (⟨[]⟩ : ConcurrentQueue Nat) = (none, ⟨[]⟩)
  ∧ ConcurrentQueue.tryPop (⟨[4, 5]⟩ : ConcurrentQueue Nat) = (some 4, ⟨[5]⟩) :=
  ⟨concurrentQueue_contract.2.1 Nat ⟨[]⟩ rfl,
   concurrentQueue_contract.2.2.1 Nat ⟨[4, 5]⟩ 4 [5] rfl⟩

/-- C8: every move transfer of a `CpuTexture` or `LoadResult` hands the
buffer pointers to the destination and leaves the moved-from source's
pixel buffer and raw-image pointer null, so at most one owner holds a
given decoded buffer after a transfer. -/
theorem move_transfer_unique_owner :
    (∀ src : CpuTexture,
       (CpuTexture.moveCtor src).1.pixels = src.pixels
       ∧ (CpuTexture.moveCtor src).2.pixels = none)
  ∧ (∀ dst src : CpuTexture,
       (CpuTexture.moveAssign dst src).1.pixels = src.pixels
       ∧ (CpuTexture.moveAssign dst src).2.pixels = none)
  ∧ (∀ src : LoadResult,
       (LoadResult.moveCtor src).1.rawImage = src.rawImage
       ∧ (LoadResult.moveCtor src).1.cpuTexture.pixels = src.cpuTexture.pixels
       ∧ (LoadResult.moveCtor src).2.rawImage = none
       ∧ (LoadResult.moveCtor src).2.cpuTexture.pixels = none)
  ∧ (∀ dst src : LoadResult,
       (LoadResult.moveAssign dst src).1.rawImage = src.rawImage
       ∧ (LoadResult.moveAssign dst src).1.cpuTexture.pixels = src.cpuTexture.pixels
       ∧ (LoadResult.moveAssign dst src).2.rawImage = none
       ∧ (LoadResult.moveAssign dst src).2.cpuTexture.pixels = none) :=
  ⟨fun _ => ⟨rfl, rfl⟩, fun _ _ => ⟨rfl, rfl⟩,
   fun _ => ⟨rfl, rfl, rfl, rfl⟩, fun _ _ => ⟨rfl, rfl, rfl, rfl⟩⟩

/-! ### Worker result lemmas -/

theorem mem_loadRawResults (env : DecodeEnv) (task : LoadTask) (r : LoadResult)
    (h : r ∈ loadRawResults env task) :
    r.imageType = ImageType.Raw ∧ r.orientation = 0 := by
  unfold loadRawResults at h
  by_cases hp : env.dcrawProcessOk task.imagePath = true
  · rw [if_pos hp] at h
    cases hm : env.memImage task.imagePath with
    | none => rw [hm] at h; simp at h
    | some img =>
      rw [hm] at h
      simp at h
      subst h
      exact ⟨rfl, rfl⟩
  · rw [if_neg hp] at h
    simp at h

theorem loadPreviewResult_fields (env : DecodeEnv) (task : LoadTask) :
    (loadPreviewResult env task).imageType = ImageType.Preview
    ∧ (loadPreviewResult env task).orientation = env.flip task.imagePath :=
  ⟨rfl, rfl⟩

theorem mem_processTask (env : DecodeEnv) (task : LoadTask) (r : LoadResult)
    (h : r ∈ processTask env task) :
    r = loadPreviewResult env task ∨ r ∈ loadRawResults env task := by
  obtain ⟨idx, path, lt⟩ := task
  unfold processTask at h
  by_cases ho : env.openUnpackOk path = true
  · rw [if_pos ho] at h
    cases lt with
    | PreviewOnly =>
      simp at h
      exact Or.inl h
    | RawOnly => exact Or.inr h
    | Both =>
      rw [List.mem_cons] at h
      exact h
  · rw [if_neg ho] at h
    simp at h

theorem gpuTexture_fromRaw_orientation (image : Option RawImage) (orient : Int) :
    (GpuTexture.fromRaw image orient).orientation = orient := by
  unfold GpuTexture.fromRaw
  cases image with
  | none => rfl
  | some img =>
    by_cases hk : img.kind = LibRawImageKind.Bitmap
    · simp [hk]
    · simp [hk]

/-- C10: every raw (full-decode) result a worker pushes has orientation
0, while preview results carry the decoder's flip value; applying a raw
result stores that orientation on the registry's raw texture, and a GPU
texture with orientation 0 is rendered unrotated. -/
theorem raw_results_never_rotated :
    (∀ (env : DecodeEnv) (task : LoadTask) (r : LoadResult),
       r ∈ processTask env task →
       (r.imageType = ImageType.Raw → r.orientation = 0)
       ∧ (r.imageType = ImageType.Preview →
          r.orientation = env.flip task.imagePath))
  ∧ (∀ (es : Entries) (r : LoadResult), r.imageType = ImageType.Raw →
       (entryAt (applyResult es r) r.imageIndex).raw.orientation = r.orientation)
  ∧ (∀ g : GpuTexture, g.orientation = 0 → g.getRotationDegrees = 0) := by
  refine ⟨?_, ?_, ?_⟩
  · intro env task r hr
    rcases mem_processTask env task r hr with h | h
    · subst h
      refine ⟨fun hraw => ?_, fun _ => rfl⟩
      rw [(loadPreviewResult_fields env task).1] at hraw
      cases hraw
    · rcases mem_loadRawResults env task r h with ⟨hty, hz⟩
      refine ⟨fun _ => hz, fun hprev => ?_⟩
      rw [hty] at hprev
      cases hprev
  · intro es r hty
    unfold applyResult
    rw [hty]
    simp [entryAt_setEntry_self, gpuTexture_fromRaw_orientation]
  · intro g hg
    simp [GpuTexture.getRotationDegrees, hg]

/-- C10 witness: the raw result produced for a concrete file has
orientation 0 even though the decoder reports flip 6. -/
theorem raw_results_never_rotated_witness :
    okEnv.flip "a.raw" = 6
  ∧ ((⟨3, ImageType.Raw, CpuTexture.init,
        some ⟨LibRawImageKind.Bitmap, 8, 4, [3]⟩, 0⟩ : LoadResult).imageType
        = ImageType.Raw → (⟨3, ImageType.Raw, CpuTexture.init,
        some ⟨LibRawImageKind.Bitmap, 8, 4, [3]⟩, 0⟩ : LoadResult).orientation = 0)
  ∧ ((⟨3, ImageType.Raw, CpuTexture.init,
        some ⟨LibRawImageKind.Bitmap, 8, 4, [3]⟩, 0⟩ : LoadResult).imageType
        = ImageType.Preview → (⟨3, ImageType.Raw, CpuTexture.init,
        some ⟨LibRawImageKind.Bitmap, 8, 4, [3]⟩, 0⟩ : LoadResult).orientation
        = okEnv.flip "a.raw") :=
  ⟨rfl,
   (raw_results_never_rotated.1 okEnv ⟨3, "a.raw", LoadType.RawOnly⟩ _
     (by decide)).1,
   (raw_results_never_rotated.1 okEnv ⟨3, "a.raw", LoadType.RawOnly⟩ _
     (by decide)).2⟩

theorem preview_head_ordering (x : LoadResult) (L : List LoadResult)
    (hx : x.imageType = ImageType.Preview)
    (hL : ∀ r ∈ L, r.imageType = ImageType.Raw) :
    ∀ (i j : Nat) (hi : i < (x :: L).length) (hj : j < (x :: L).length),
      ((x :: L).get ⟨i, hi⟩).imageType = ImageType.Preview →
      ((x :: L).get ⟨j, hj⟩).imageType = ImageType.Raw → i < j := by
  intro i j hi hj hPrev hRaw
  cases i with
  | zero =>
    cases j with
    | zero =>
      have hzero : (x :: L).get ⟨0, hj⟩ = x := rfl
      rw [hzero, hx] at hRaw
      cases hRaw
    | succ n => exact Nat.succ_pos n
  | succ k =>
    exfalso
    have hk : k < L.length := by simpa using hi
    have hget : (x :: L).get ⟨k + 1, hi⟩ = L.get ⟨k, hk⟩ := rfl
    rw [hget] at hPrev
    have hraw := hL _ (List.get_mem L k hk)
    rw [hraw] at hPrev
    cases hPrev

/-- C5: executing a `Both` task, a worker pushes the preview result
first (it is the head of the pushed sequence), and in the sequence of
results that task produces every preview-typed result strictly precedes
every raw-typed result — the two decodes run sequentially on that one
worker. -/
theorem both_task_preview_before_raw (env : DecodeEnv) (task : LoadTask)
    (hB : task.loadType = LoadType.Both) :
    (env.openUnpackOk task.imagePath = true →
       (processTask env task).head? = some (loadPreviewResult env task))
  ∧ (∀ (i j : Nat) (hi : i < (processTask env task).length)
       (hj : j < (processTask env task).length),
       ((processTask env task).get ⟨i, hi⟩).imageType = ImageType.Preview →
       ((processTask env task).get ⟨j, hj⟩).imageType = ImageType.Raw →
       i < j) := by
  obtain ⟨idx, path, lt⟩ := task
  cases hB
  by_cases ho : env.openUnpackOk path = true
  · have hlist : processTask env ⟨idx, path, LoadType.Both⟩
        = loadPreviewResult env ⟨idx, path, LoadType.Both⟩
          :: loadRawResults env ⟨idx, path, LoadType.Both⟩ := by
      simp [processTask, ho]
    constructor
    · intro _
      rw [hlist]
      rfl
    · rw [hlist]
      exact preview_head_ordering _ _
        (loadPreviewResult_fields env ⟨idx, path, LoadType.Both⟩).1
        (fun r hr => (mem_loadRawResults env ⟨idx, path, LoadType.Both⟩ r hr).1)
  · have hlist : processTask env ⟨idx, path, LoadType.Both⟩ = [] := by
      simp [processTask, ho]
    constructor
    · intro h
      exact absurd h ho
    · rw [hlist]
      intro i j hi hj hPrev hRaw
      simp at hi

/-- C5 witness: on a concrete `Both` task processed by a fully
successful decoder, the preview result is the head of the pushed
sequence and the result at position 0 (preview) precedes the one at
position 1 (raw). -/
theorem both_task_preview_before_raw_witness :
    (processTask okEnv ⟨2, "a.raw", LoadType.Both⟩).head?
      = some (loadPreviewResult okEnv ⟨2, "a.raw", LoadType.Both⟩)
  ∧ (0 : Nat) < 1 :=
  ⟨(both_task_preview_before_raw okEnv ⟨2, "a.raw", LoadType.Both⟩ rfl).1 rfl,
   (both_task_preview_before_raw okEnv ⟨2, "a.raw", LoadType.Both⟩ rfl).2 0 1
     (by decide) (by decide) (by decide) (by decide)⟩

/-- C3: when the preview for `i` is neither loaded nor requested,
`tryGetThumbnail` returns nothing and enqueues exactly one preview-only
task, and a second call before any result is drained returns nothing
and changes nothing — in particular it enqueues no further task. -/
theorem tryGetThumbnail_dedup (db : ImageDatabase) (i : Nat) (p : String)
    (h : previewIdle db i = true) :
    (tryGetThumbnail db i p).1 = none
  ∧ (tryGetThumbnail db i p).2.taskQueue.items
      = db.taskQueue.items ++ [⟨i, p, LoadType.PreviewOnly⟩]
  ∧ (tryGetThumbnail (tryGetThumbnail db i p).2 i p).1 = none
  ∧ (tryGetThumbnail (tryGetThumbnail db i p).2 i p).2
      = (tryGetThumbnail db i p).2 := by
  unfold previewIdle at h
  simp only [Bool.and_eq_true, Bool.not_eq_true'] at h
  obtain ⟨hload0, hreq0⟩ := h
  cases hfe : findEntry db.entries i with
  | none =>
    refine ⟨?_, ?_, ?_, ?_⟩ <;>
      simp [tryGetThumbnail, hfe, queuePreviewTask, ConcurrentQueue.push,
        findEntry_setEntry_self, ImageEntry.init]
  | some e =>
    have hat : entryAt db.entries i = e := by simp [entryAt, hfe]
    rw [hat] at hload0 hreq0
    refine ⟨?_, ?_, ?_, ?_⟩ <;>
      simp [tryGetThumbnail, hfe, hload0, hreq0, queuePreviewTask,
        ConcurrentQueue.push, findEntry_setEntry_self]

/-- C3 witness: two consecutive thumbnail requests for id 0 on a fresh
database queue exactly one preview-only task. -/
theorem tryGetThumbnail_dedup_witness :
    (tryGetThumbnail ImageDatabase.mk0 0 "a.raw").1 = none
  ∧ (tryGetThumbnail ImageDatabase.mk0 0 "a.raw").2.taskQueue.items
      = ImageDatabase.mk0.taskQueue.items ++ [⟨0, "a.raw", LoadType.PreviewOnly⟩]
  ∧ (tryGetThumbnail (tryGetThumbnail ImageDatabase.mk0 0 "a.raw").2 0 "a.raw").1
      = none
  ∧ (tryGetThumbnail (tryGetThumbnail ImageDatabase.mk0 0 "a.raw").2 0 "a.raw").2
      = (tryGetThumbnail ImageDatabase.mk0 0 "a.raw").2 :=
  tryGetThumbnail_dedup ImageDatabase.mk0 0 "a.raw" (by decide)

/-- C4: when the full image for `i` is neither loaded nor requested,
`tryGetRaw` returns nothing and: if the preview is already loaded or
requested it enqueues exactly one `RawOnly` task, leaving the preview
request flag as it was; otherwise it enqueues exactly one `Both` task
and marks both preview and raw requested in the same call. -/
theorem tryGetRaw_task_selection (db : ImageDatabase) (i : Nat) (p : String)
    (h : rawIdle db i = true) :
    (tryGetRaw db i p).1 = none
  ∧ (entryAt (tryGetRaw db i p).2.entries i).rawRequested = true
  ∧ (previewActive db i = true →
       (tryGetRaw db i p).2.taskQueue.items
         = db.taskQueue.items ++ [⟨i, p, LoadType.RawOnly⟩]
       ∧ (entryAt (tryGetRaw db i p).2.entries i).previewRequested
         = (entryAt db.entries i).previewRequested)
  ∧ (previewActive db i = false →
       (tryGetRaw db i p).2.taskQueue.items
         = db.taskQueue.items ++ [⟨i, p, LoadType.Both⟩]
       ∧ (entryAt (tryGetRaw db i p).2.entries i).previewRequested = true) := by
  unfold rawIdle at h
  simp only [Bool.and_eq_true, Bool.not_eq_true'] at h
  obtain ⟨hload0, hreq0⟩ := h
  cases hfe : findEntry db.entries i with
  | none =>
    have hat : entryAt db.entries i = ImageEntry.init := by
      simp [entryAt, hfe]
    refine ⟨?_, ?_, ?_, ?_⟩ <;>
      simp [tryGetRaw, hfe, queueRawTask, previewActive, hat,
        ImageEntry.init, ConcurrentQueue.push, entryAt_setEntry_self]
  | some e =>
    have hat : entryAt db.entries i = e := by simp [entryAt, hfe]
    rw [hat] at hload0 hreq0
    by_cases hpa : (e.previewLoaded || e.previewRequested) = true
    · refine ⟨?_, ?_, ?_, ?_⟩ <;>
        simp [tryGetRaw, hfe, hload0, hreq0, queueRawTask, hpa, previewActive,
          hat, ConcurrentQueue.push, entryAt_setEntry_self]
    · refine ⟨?_, ?_, ?_, ?_⟩ <;>
        simp [tryGetRaw, hfe, hload0, hreq0, queueRawTask, hpa, previewActive,
          hat, ConcurrentQueue.push, entryAt_setEntry_self]

/-- C4 witness: on a fresh database (preview not requested), a full
request for id 1 queues exactly one `Both` task and marks both stages
requested. -/
theorem tryGetRaw_task_selection_witness :
    (tryGetRaw ImageDatabase.mk0 1 "b.raw").1 = none
  ∧ (entryAt (tryGetRaw ImageDatabase.mk0 1 "b.raw").2.entries 1).rawRequested
      = true
  ∧ (previewActive ImageDatabase.mk0 1 = false →
       (tryGetRaw ImageDatabase.mk0 1 "b.raw").2.taskQueue.items
         = ImageDatabase.mk0.taskQueue.items ++ [⟨1, "b.raw", LoadType.Both⟩]
       ∧ (entryAt (tryGetRaw ImageDatabase.mk0 1 "b.raw").2.entries 1).previewRequested
         = true) :=
  ⟨(tryGetRaw_task_selection ImageDatabase.mk0 1 "b.raw" (by decide)).1,
   (tryGetRaw_task_selection ImageDatabase.mk0 1 "b.raw" (by decide)).2.1,
   (tryGetRaw_task_selection ImageDatabase.mk0 1 "b.raw" (by decide)).2.2.2⟩

/-- C2 counterexample: draining a preview result for identifier 7,
which has no registry entry, does not discard it — `update` creates a
fresh entry for 7, stores the uploaded buffer, and marks the preview
state Ready (loaded). -/
theorem stale_result_is_applied_not_discarded :
    findEntry staleDb.entries 7 = none
  ∧ findEntry staleDb.update.entries 7 ≠ none
  ∧ (entryAt staleDb.update.entries 7).previewLoaded = true
  ∧ (entryAt staleDb.update.entries 7).preview.texture ≠ none := by
  decide

/-- C2 amended: for every result drained whose identifier has no
registry entry, `update` lazily creates a new entry for that
identifier, stores the transformed buffer, and sets the state for the
result's kind to Ready (loaded) — the result is applied, not
discarded. -/
theorem update_applies_unknown_result (db : ImageDatabase) (r : LoadResult)
    (hq : db.resultsQueue.items = [r])
    (_hnone : findEntry db.entries r.imageIndex = none) :
    findEntry db.update.entries r.imageIndex ≠ none
  ∧ (r.imageType = ImageType.Preview →
       (entryAt db.update.entries r.imageIndex).previewLoaded = true
       ∧ (entryAt db.update.entries r.imageIndex).preview
         = GpuTexture.fromCpu r.cpuTexture r.orientation)
  ∧ (r.imageType = ImageType.Raw →
       (entryAt db.update.entries r.imageIndex).rawLoaded = true
       ∧ (entryAt db.update.entries r.imageIndex).raw
         = GpuTexture.fromRaw r.rawImage r.orientation) := by
  have hupd : db.update.entries = applyResult db.entries r := by
    simp [ImageDatabase.update, hq]
  rw [hupd]
  unfold applyResult
  cases hty : r.imageType with
  | Preview =>
    refine ⟨?_, fun _ => ?_, fun hr => ?_⟩
    · rw [findEntry_setEntry_self]
      simp
    · rw [entryAt_setEntry_self]
      exact ⟨rfl, rfl⟩
    · cases hr
  | Raw =>
    refine ⟨?_, fun hp => ?_, fun _ => ?_⟩
    · rw [findEntry_setEntry_self]
      simp
    · cases hp
    · rw [entryAt_setEntry_self]
      exact ⟨rfl, rfl⟩

/-- C2 amended witness: the stale result for id 7 applied on the
concrete database. -/
theorem update_applies_unknown_result_witness :
    findEntry staleDb.update.entries staleResult.imageIndex ≠ none
  ∧ (staleResult.imageType = ImageType.Preview →
       (entryAt staleDb.update.entries staleResult.imageIndex).previewLoaded = true
       ∧ (entryAt staleDb.update.entries staleResult.imageIndex).preview
         = GpuTexture.fromCpu staleResult.cpuTexture staleResult.orientation) :=
  ⟨(update_applies_unknown_result staleDb staleResult rfl rfl).1,
   (update_applies_unknown_result staleDb staleResult rfl rfl).2.1⟩

/-- C1: at the failing input (id 5, a file the decoder cannot open or
unpack), the worker pushes no result; after the worker step and a
consumer drain the entry for 5 still has both request flags set and
both loaded flags clear — there is no Failed transition, the stage
remains Requested forever (the state is a fixpoint of further worker
and drain steps) — and `isFullyLoaded 5` stays false. -/
theorem failed_decode_stays_requested :
    (tryGetRaw ImageDatabase.mk0 5 "bad.raw").1 = none
  ∧ failDb1.taskQueue.items = [⟨5, "bad.raw", LoadType.Both⟩]
  ∧ processTask failEnv ⟨5, "bad.raw", LoadType.Both⟩ = []
  ∧ findEntry failDb3.entries 5
      = some { ImageEntry.init with previewRequested := true, rawRequested := true }
  ∧ isFullyLoaded failDb3 5 = false
  ∧ (workerStep failEnv failDb3).update = failDb3 := by
  decide

theorem loadJpegPreview_no_preview (env : DecodeEnv) (p : String)
    (h : env.unpackThumbOk p = false ∨ env.thumb p = none
       ∨ (∃ t, env.thumb p = some t ∧ t.kind ≠ LibRawImageKind.JPEG)
       ∨ env.stbiDecode p = none) :
    loadJpegPreview env p = CpuTexture.init := by
  unfold loadJpegPreview
  rcases h with h | h | ⟨t, ht, hk⟩ | h
  · simp [h]
  · by_cases hu : env.unpackThumbOk p = true
    · simp [hu, h]
    · simp [hu]
  · by_cases hu : env.unpackThumbOk p = true
    · simp [hu, ht, hk]
    · simp [hu]
  · by_cases hu : env.unpackThumbOk p = true
    · cases hthumb : env.thumb p with
      | none => simp [hu, hthumb]
      | some t =>
        by_cases hk : t.kind = LibRawImageKind.JPEG
        · simp [hu, hthumb, hk, h]
        · simp [hu, hthumb, hk]
    · simp [hu]

/-- C9: when a file opens and unpacks fine but carries no decodable
embedded JPEG preview, the worker still pushes exactly one preview
result, with a null pixel buffer; draining it sets the preview state to
Ready (`previewLoaded = true`) with a null underlying texture, and the
next `tryGetThumbnail` then returns a non-null handle whose `texture`
is null — at the interface a missing preview is indistinguishable from
a loaded one by the preview state alone. -/
theorem missing_preview_indistinguishable (env : DecodeEnv) (db : ImageDatabase)
    (i : Nat) (p : String)
    (hopen : env.openUnpackOk p = true)
    (hnoprev : env.unpackThumbOk p = false ∨ env.thumb p = none
       ∨ (∃ t, env.thumb p = some t ∧ t.kind ≠ LibRawImageKind.JPEG)
       ∨ env.stbiDecode p = none) :
    processTask env ⟨i, p, LoadType.PreviewOnly⟩
      = [loadPreviewResult env ⟨i, p, LoadType.PreviewOnly⟩]
  ∧ (loadPreviewResult env ⟨i, p, LoadType.PreviewOnly⟩).cpuTexture.pixels = none
  ∧ (entryAt (applyResult db.entries
        (loadPreviewResult env ⟨i, p, LoadType.PreviewOnly⟩)) i).previewLoaded
      = true
  ∧ (entryAt (applyResult db.entries
        (loadPreviewResult env ⟨i, p, LoadType.PreviewOnly⟩)) i).preview.texture
      = none
  ∧ Option.map GpuTexture.texture
      (tryGetThumbnail
        ⟨applyResult db.entries (loadPreviewResult env ⟨i, p, LoadType.PreviewOnly⟩),
         db.taskQueue, db.resultsQueue⟩ i p).1
      = some none := by
  have hjpeg := loadJpegPreview_no_preview env p hnoprev
  have hres : loadPreviewResult env ⟨i, p, LoadType.PreviewOnly⟩
      = ⟨i, ImageType.Preview, CpuTexture.init, none, env.flip p⟩ := by
    simp [loadPreviewResult, hjpeg]
  have happly : applyResult db.entries (loadPreviewResult env ⟨i, p, LoadType.PreviewOnly⟩)
      = setEntry db.entries i
          { entryAt db.entries i with
            preview := GpuTexture.fromCpu CpuTexture.init (env.flip p),
            previewLoaded := true } := by
    rw [hres]
    rfl
  have htex : GpuTexture.fromCpu CpuTexture.init (env.flip p)
      = ⟨none, 0, 0, env.flip p⟩ := rfl
  refine ⟨?_, ?_, ?_, ?_, ?_⟩
  · simp [processTask, hopen]
  · rw [hres]
    rfl
  · rw [happly, entryAt_setEntry_self]
  · rw [happly, entryAt_setEntry_self]
    simp [htex]
  · rw [happly]
    simp [tryGetThumbnail, findEntry_setEntry_self, htex]

/-- C9 witness: on a decoder whose files have no embedded thumbnail,
id 0's preview result has a null buffer yet yields a Ready state and a
non-null handle with a null texture. -/
theorem missing_preview_indistinguishable_witness :
    (loadPreviewResult noThumbEnv ⟨0, "c.raw", LoadType.PreviewOnly⟩).cpuTexture.pixels
      = none
  ∧ (entryAt (applyResult ImageDatabase.mk0.entries
        (loadPreviewResult noThumbEnv ⟨0, "c.raw", LoadType.PreviewOnly⟩)) 0).previewLoaded
      = true
  ∧ Option.map GpuTexture.texture
      (tryGetThumbnail
        ⟨applyResult ImageDatabase.mk0.entries
           (loadPreviewResult noThumbEnv ⟨0, "c.raw", LoadType.PreviewOnly⟩),
         ImageDatabase.mk0.taskQueue, ImageDatabase.mk0.resultsQueue⟩ 0 "c.raw").1
      = some none :=
  ⟨(missing_preview_indistinguishable noThumbEnv ImageDatabase.mk0 0 "c.raw" rfl
      (Or.inl rfl)).2.1,
   (missing_preview_indistinguishable noThumbEnv ImageDatabase.mk0 0 "c.raw" rfl
      (Or.inl rfl)).2.2.1,
   (missing_preview_indistinguishable noThumbEnv ImageDatabase.mk0 0 "c.raw" rfl
      (Or.inl rfl)).2.2.2.2⟩

/-! ### Loaded-flag lemmas for C6 -/

theorem applyResult_previewLoadedAt_mono (es : Entries) (r : LoadResult) (i : Nat)
    (h : previewLoadedAt es i = true) :
    previewLoadedAt (applyResult es r) i = true := by
  obtain ⟨ridx, rty, rcpu, rraw, rori⟩ := r
  by_cases hi : ridx = i
  · subst hi
    cases rty with
    | Preview =>
      simp only [applyResult, previewLoadedAt, entryAt_setEntry_self]
    | Raw =>
      simp only [applyResult, previewLoadedAt, entryAt_setEntry_self]
      exact h
  · have hne : i ≠ ridx := fun he => hi he.symm
    cases rty with
    | Preview =>
      simp only [applyResult, previewLoadedAt]
      rw [entryAt_setEntry_ne _ _ _ _ hne]
      exact h
    | Raw =>
      simp only [applyResult, previewLoadedAt]
      rw [entryAt_setEntry_ne _ _ _ _ hne]
      exact h

theorem applyResult_rawLoadedAt_mono (es : Entries) (r : LoadResult) (i : Nat)
    (h : rawLoadedAt es i = true) :
    rawLoadedAt (applyResult es r) i = true := by
  obtain ⟨ridx, rty, rcpu, rraw, rori⟩ := r
  by_cases hi : ridx = i
  · subst hi
    cases rty with
    | Preview =>
      simp only [applyResult, rawLoadedAt, entryAt_setEntry_self]
      exact h
    | Raw =>
      simp only [applyResult, rawLoadedAt, entryAt_setEntry_self]
  · have hne : i ≠ ridx := fun he => hi he.symm
    cases rty with
    | Preview =>
      simp only [applyResult, rawLoadedAt]
      rw [entryAt_setEntry_ne _ _ _ _ hne]
      exact h
    | Raw =>
      simp only [applyResult, rawLoadedAt]
      rw [entryAt_setEntry_ne _ _ _ _ hne]
      exact h

theorem applyResult_preview_trigger (es : Entries) (r : LoadResult)
    (hty : r.imageType = ImageType.Preview) :
    previewLoadedAt (applyResult es r) r.imageIndex = true := by
  obtain ⟨ridx, rty, rcpu, rraw, rori⟩ := r
  subst hty
  simp only [applyResult, previewLoadedAt, entryAt_setEntry_self]

theorem applyResult_raw_trigger (es : Entries) (r : LoadResult)
    (hty : r.imageType = ImageType.Raw) :
    rawLoadedAt (applyResult es r) r.imageIndex = true := by
  obtain ⟨ridx, rty, rcpu, rraw, rori⟩ := r
  subst hty
  simp only [applyResult, rawLoadedAt, entryAt_setEntry_self]

theorem foldl_applyResult_previewLoadedAt_mono (rs : List LoadResult)
    (es : Entries) (i : Nat) (h : previewLoadedAt es i = true) :
    previewLoadedAt (rs.foldl applyResult es) i = true := by
  induction rs generalizing es with
  | nil => exact h
  | cons r rs ih => exact ih _ (applyResult_previewLoadedAt_mono es r i h)

theorem foldl_applyResult_rawLoadedAt_mono (rs : List LoadResult)
    (es : Entries) (i : Nat) (h : rawLoadedAt es i = true) :
    rawLoadedAt (rs.foldl applyResult es) i = true := by
  induction rs generalizing es with
  | nil => exact h
  | cons r rs ih => exact ih _ (applyResult_rawLoadedAt_mono es r i h)

theorem foldl_applyResult_preview_of_mem (rs : List LoadResult)
    (es : Entries) (i : Nat)
    (h : ∃ r ∈ rs, r.imageIndex = i ∧ r.imageType = ImageType.Preview) :
    previewLoadedAt (rs.foldl applyResult es) i = true := by
  induction rs generalizing es with
  | nil =>
    rcases h with ⟨r, hr, _⟩
    cases hr
  | cons a rs ih =>
    rcases h with ⟨r, hr, hidx, hty⟩
    rcases List.mem_cons.mp hr with h1 | h1
    · subst h1
      exact foldl_applyResult_previewLoadedAt_mono rs _ i
        (by rw [← hidx]; exact applyResult_preview_trigger es r hty)
    · exact ih _ ⟨r, h1, hidx, hty⟩

theorem foldl_applyResult_raw_of_mem (rs : List LoadResult)
    (es : Entries) (i : Nat)
    (h : ∃ r ∈ rs, r.imageIndex = i ∧ r.imageType = ImageType.Raw) :
    rawLoadedAt (rs.foldl applyResult es) i = true := by
  induction rs generalizing es with
  | nil =>
    rcases h with ⟨r, hr, _⟩
    cases hr
  | cons a rs ih =>
    rcases h with ⟨r, hr, hidx, hty⟩
    rcases List.mem_cons.mp hr with h1 | h1
    · subst h1
      exact foldl_applyResult_rawLoadedAt_mono rs _ i
        (by rw [← hidx]; exact applyResult_raw_trigger es r hty)
    · exact ih _ ⟨r, h1, hidx, hty⟩

theorem isFullyLoaded_eq (db : ImageDatabase) (i : Nat) :
    isFullyLoaded db i
      = (previewLoadedAt db.entries i && rawLoadedAt db.entries i) := by
  cases h : findEntry db.entries i with
  | none =>
    simp [isFullyLoaded, previewLoadedAt, rawLoadedAt, entryAt, h, ImageEntry.init]
  | some e =>
    simp [isFullyLoaded, previewLoadedAt, rawLoadedAt, entryAt, h]

theorem tryGetThumbnail_preserves_loadedAt (db : ImageDatabase) (j : Nat)
    (p : String) (i : Nat) :
    previewLoadedAt (tryGetThumbnail db j p).2.entries i = previewLoadedAt db.entries i
  ∧ rawLoadedAt (tryGetThumbnail db j p).2.entries i = rawLoadedAt db.entries i := by
  cases hfe : findEntry db.entries j with
  | some e =>
    by_cases hl : e.previewLoaded = true
    · simp [tryGetThumbnail, hfe, hl]
    · by_cases hr : e.previewRequested = true
      · simp [tryGetThumbnail, hfe, hl, hr]
      · by_cases hij : i = j
        · subst hij
          have hat : entryAt db.entries i = e := by simp [entryAt, hfe]
          simp [tryGetThumbnail, hfe, hl, hr, queuePreviewTask, previewLoadedAt,
            rawLoadedAt, entryAt_setEntry_self, hat]
        · constructor <;>
            simp [tryGetThumbnail, hfe, hl, hr, queuePreviewTask, previewLoadedAt,
              rawLoadedAt, entryAt_setEntry_ne _ _ _ _ hij]
  | none =>
    by_cases hij : i = j
    · subst hij
      have hat : entryAt db.entries i = ImageEntry.init := by simp [entryAt, hfe]
      simp [tryGetThumbnail, hfe, queuePreviewTask, previewLoadedAt, rawLoadedAt,
        entryAt_setEntry_self, hat, ImageEntry.init]
    · constructor <;>
        simp [tryGetThumbnail, hfe, queuePreviewTask, previewLoadedAt, rawLoadedAt,
          entryAt_setEntry_ne _ _ _ _ hij]

theorem tryGetRaw_preserves_loadedAt (db : ImageDatabase) (j : Nat)
    (p : String) (i : Nat) :
    previewLoadedAt (tryGetRaw db j p).2.entries i = previewLoadedAt db.entries i
  ∧ rawLoadedAt (tryGetRaw db j p).2.entries i = rawLoadedAt db.entries i := by
  cases hfe : findEntry db.entries j with
  | some e =>
    by_cases hl : e.rawLoaded = true
    · simp [tryGetRaw, hfe, hl]
    · by_cases hr : e.rawRequested = true
      · simp [tryGetRaw, hfe, hl, hr]
      · by_cases hb : (e.previewLoaded || e.previewRequested) = true
        · by_cases hij : i = j
          · subst hij
            have hat : entryAt db.entries i = e := by simp [entryAt, hfe]
            simp [tryGetRaw, hfe, hl, hr, queueRawTask, hb, previewLoadedAt,
              rawLoadedAt, entryAt_setEntry_self, hat]
          · constructor <;>
              simp [tryGetRaw, hfe, hl, hr, queueRawTask, hb, previewLoadedAt,
                rawLoadedAt, entryAt_setEntry_ne _ _ _ _ hij]
        · by_cases hij : i = j
          · subst hij
            have hat : entryAt db.entries i = e := by simp [entryAt, hfe]
            simp [tryGetRaw, hfe, hl, hr, queueRawTask, hb, previewLoadedAt,
              rawLoadedAt, entryAt_setEntry_self, hat]
          · constructor <;>
              simp [tryGetRaw, hfe, hl, hr, queueRawTask, hb, previewLoadedAt,
                rawLoadedAt, entryAt_setEntry_ne _ _ _ _ hij]
  | none =>
    by_cases hij : i = j
    · subst hij
      have hat : entryAt db.entries i = ImageEntry.init := by simp [entryAt, hfe]
      simp [tryGetRaw, hfe, queueRawTask, previewLoadedAt, rawLoadedAt,
        entryAt_setEntry_self, hat, ImageEntry.init]
    · constructor <;>
        simp [tryGetRaw, hfe, queueRawTask, previewLoadedAt, rawLoadedAt,
          ImageEntry.init, entryAt_setEntry_ne _ _ _ _ hij]

theorem warmStep_preserves_loadedAt (db : ImageDatabase) (ip : Nat × String)
    (i : Nat) :
    previewLoadedAt (warmStep db ip).entries i = previewLoadedAt db.entries i
  ∧ rawLoadedAt (warmStep db ip).entries i = rawLoadedAt db.entries i := by
  obtain ⟨j, p⟩ := ip
  cases hfe : findEntry db.entries j with
  | some e =>
    by_cases hc : (e.previewLoaded || e.previewRequested) = true
    · simp [warmStep, hfe, hc]
    · by_cases hij : i = j
      · subst hij
        have hat : entryAt db.entries i = e := by simp [entryAt, hfe]
        simp [warmStep, hfe, hc, queuePreviewTask, previewLoadedAt, rawLoadedAt,
          entryAt_setEntry_self, hat]
      · constructor <;>
          simp [warmStep, hfe, hc, queuePreviewTask, previewLoadedAt, rawLoadedAt,
            entryAt_setEntry_ne _ _ _ _ hij]
  | none =>
    by_cases hij : i = j
    · subst hij
      have hat : entryAt db.entries i = ImageEntry.init := by simp [entryAt, hfe]
      simp [warmStep, hfe, queuePreviewTask, previewLoadedAt, rawLoadedAt,
        entryAt_setEntry_self, hat, ImageEntry.init]
    · constructor <;>
        simp [warmStep, hfe, queuePreviewTask, previewLoadedAt, rawLoadedAt,
          entryAt_setEntry_ne _ _ _ _ hij]

theorem foldl_warmStep_preserves_loadedAt (l : List (Nat × String))
    (db : ImageDatabase) (i : Nat) :
    previewLoadedAt (l.foldl warmStep db).entries i = previewLoadedAt db.entries i
  ∧ rawLoadedAt (l.foldl warmStep db).entries i = rawLoadedAt db.entries i := by
  induction l generalizing db with
  | nil => exact ⟨rfl, rfl⟩
  | cons ip l ih =>
    rcases ih (warmStep db ip) with ⟨ih1, ih2⟩
    rcases warmStep_preserves_loadedAt db ip i with ⟨h1, h2⟩
    exact ⟨ih1.trans h1, ih2.trans h2⟩

theorem workerStep_entries (env : DecodeEnv) (db : ImageDatabase) :
    (workerStep env db).entries = db.entries := by
  cases htp : db.taskQueue.tryPop with
  | mk o q =>
    cases o with
    | none => simp [workerStep, htp]
    | some t => simp [workerStep, htp]

/-- C6: `isFullyLoaded i` is false while no entry for `i` exists or
while either loaded flag is still clear; it is true immediately after a
drain applies both a preview and a raw result for `i`; and once true it
stays true across every subsequent operation (accessor calls, bulk
warm-up, drains and worker steps). -/
theorem isFullyLoaded_spec :
    (∀ (db : ImageDatabase) (i : Nat), findEntry db.entries i = none →
       isFullyLoaded db i = false)
  ∧ (∀ (db : ImageDatabase) (i : Nat) (e : ImageEntry),
       findEntry db.entries i = some e →
       e.previewLoaded = false ∨ e.rawLoaded = false →
       isFullyLoaded db i = false)
  ∧ (∀ (db : ImageDatabase) (i : Nat),
       (∃ r ∈ db.resultsQueue.items,
          r.imageIndex = i ∧ r.imageType = ImageType.Preview) →
       (∃ r ∈ db.resultsQueue.items,
          r.imageIndex = i ∧ r.imageType = ImageType.Raw) →
       isFullyLoaded db.update i = true)
  ∧ (∀ (op : DbOp) (db : ImageDatabase) (i : Nat),
       isFullyLoaded db i = true → isFullyLoaded (applyOp op db) i = true) := by
  refine ⟨?_, ?_, ?_, ?_⟩
  · intro db i h
    simp [isFullyLoaded, h]
  · intro db i e he hflag
    rcases hflag with h | h <;> simp [isFullyLoaded, he, h]
  · intro db i h1 h2
    rw [isFullyLoaded_eq]
    have hent : db.update.entries = db.resultsQueue.items.foldl applyResult db.entries :=
      rfl
    rw [hent, foldl_applyResult_preview_of_mem _ _ _ h1,
      foldl_applyResult_raw_of_mem _ _ _ h2]
    rfl
  · intro op db i h
    rw [isFullyLoaded_eq] at h
    rw [Bool.and_eq_true] at h
    obtain ⟨hp, hr⟩ := h
    cases op with
    | thumb j p =>
      rw [isFullyLoaded_eq, Bool.and_eq_true]
      rcases tryGetThumbnail_preserves_loadedAt db j p i with ⟨h1, h2⟩
      exact ⟨h1.trans hp, h2.trans hr⟩
    | rawReq j p =>
      rw [isFullyLoaded_eq, Bool.and_eq_true]
      rcases tryGetRaw_preserves_loadedAt db j p i with ⟨h1, h2⟩
      exact ⟨h1.trans hp, h2.trans hr⟩
    | drain =>
      rw [isFullyLoaded_eq, Bool.and_eq_true]
      have hent : (applyOp DbOp.drain db).entries
          = db.resultsQueue.items.foldl applyResult db.entries := rfl
      rw [hent]
      exact ⟨foldl_applyResult_previewLoadedAt_mono _ _ _ hp,
        foldl_applyResult_rawLoadedAt_mono _ _ _ hr⟩
    | warm images =>
      rw [isFullyLoaded_eq, Bool.and_eq_true]
      rcases foldl_warmStep_preserves_loadedAt images.enum db i with ⟨h1, h2⟩
      exact ⟨h1.trans hp, h2.trans hr⟩
    | work env =>
      rw [isFullyLoaded_eq, Bool.and_eq_true]
      have hent : (applyOp (DbOp.work env) db).entries = db.entries :=
        workerStep_entries env db
      rw [hent]
      exact ⟨hp, hr⟩

/-- C6 witness: false on the empty database; true right after draining
a queue carrying both a preview and a raw result for id 4; preserved by
a subsequent accessor call. -/
theorem isFullyLoaded_spec_witness :
    isFullyLoaded ImageDatabase.mk0 0 = false
  ∧ isFullyLoaded
      (ImageDatabase.update
        ⟨[], ⟨[]⟩,
         ⟨[⟨4, ImageType.Preview, CpuTexture.init, none, 0⟩,
           ⟨4, ImageType.Raw, CpuTexture.init,
            some ⟨LibRawImageKind.Bitmap, 2, 2, [0]⟩, 0⟩]⟩⟩) 4 = true
  ∧ isFullyLoaded
      (applyOp (DbOp.thumb 9 "z.raw")
        ⟨[(4, ⟨GpuTexture.init, GpuTexture.init, true, true, false, false⟩)],
         ⟨[]⟩, ⟨[]⟩⟩) 4 = true :=
  ⟨isFullyLoaded_spec.1 ImageDatabase.mk0 0 rfl,
   isFullyLoaded_spec.2.2.1
     ⟨[], ⟨[]⟩,
      ⟨[⟨4, ImageType.Preview, CpuTexture.init, none, 0⟩,
        ⟨4, ImageType.Raw, CpuTexture.init,
         some ⟨LibRawImageKind.Bitmap, 2, 2, [0]⟩, 0⟩]⟩⟩ 4
     ⟨⟨4, ImageType.Preview, CpuTexture.init, none, 0⟩, by decide, rfl, rfl⟩
     ⟨⟨4, ImageType.Raw, CpuTexture.init,
       some ⟨LibRawImageKind.Bitmap, 2, 2, [0]⟩, 0⟩, by decide, rfl, rfl⟩,
   isFullyLoaded_spec.2.2.2 (DbOp.thumb 9 "z.raw")
     ⟨[(4, ⟨GpuTexture.init, GpuTexture.init, true, true, false, false⟩)],
      ⟨[]⟩, ⟨[]⟩⟩ 4 (by decide)⟩

end RawPhotoBrowser
